import Mathlib

/-!
Shallow embedding of `src/Docker/sea_route_service.py` (sea-path-finder).

Coordinates are (longitude, latitude) pairs of rationals (the Python floats
are modelled as exact rationals; every claim below is about exact value
comparisons, list structure, or comparisons of scores, so this is faithful).

Two pieces of numeric machinery are kept abstract, as explicit function
parameters, because their bodies delegate to external libraries:
 * `gdist` models `geopy.distance.geodesic(...).kilometers` (external
   library call, line 29 and elsewhere);
 * `bear` models `_bearing` (lines 11-20), whose body is the spherical
   bearing formula computed with `math.sin/cos/atan2` (transcendental
   library functions).
Every theorem quantifies over these parameters; concrete instances used in
counterexamples and witnesses (`pxyDist`, `pxyBear`) agree with the real
geodesic/bearing values on the axis-aligned configurations they are applied
to (bearing due east along the equator is exactly 90.0 in the Python code,
due north 0.0, due south 180.0; geodesic distance along the equator is
about 111.32 km per degree of longitude and about 110.57 km per degree of
latitude along a meridian, so every comparison made by the code comes out
the same way).
-/

/-- A coordinate, `(longitude, latitude)`, as used throughout the service. -/
abbrev Coord : Type := ℚ × ℚ

/-- Default coordinate used to totalise list indexing (the Python code only
indexes in bounds; theorems carry the bounds). -/
def cDef : Coord := (0, 0)

/-- Python's `abs` on a (float modelled as a) rational. -/
def pyabs (x : ℚ) : ℚ := if x < 0 then -x else x

/-- Python's `%` on nonnegative reals with a positive modulus:
`x - y * floor (x / y)`, giving a value in `[0, y)`. -/
def pymod (x y : ℚ) : ℚ := x - y * (⌊x / y⌋ : ℤ)

/-- Function `_ang_diff` (lines 22-25): smallest difference between two angles in
degrees.  `d = abs(a - b) % 360; return d if d <= 180 else 360 - d`. -/
def ang_diff (a b : ℚ) : ℚ :=
  let d := pymod (pyabs (a - b)) 360
  if d ≤ 180 then d else 360 - d

/-- Function `calculate_distance` (lines 27-36): geodesic kilometres, converted to the
requested units; any unit other than `"naut"` and `"km"` falls through to
the miles branch. -/
def calculate_distance (gdist : Coord → Coord → ℚ) (p1 p2 : Coord)
    (units : String) : ℚ :=
  let dist_km := gdist p1 p2
  if units = "naut" then dist_km * 0.539957
  else if units = "km" then dist_km
  else dist_km * 0.621371

/-- Sum of `calculate_distance` over consecutive coordinate pairs — the
`total_distance` loops at lines 157-159, 248-250 and 309-311. -/
def routeLength (gdist : Coord → Coord → ℚ) (units : String) :
    List Coord → ℚ
  | a :: b :: rest => calculate_distance gdist a b units +
      routeLength gdist units (b :: rest)
  | _ => 0

/-- The duration heuristic used at lines 171, 261 and 315:
`total / 24.0` for nautical miles, else `total / 44.448`. -/
def durationHours (units : String) (total : ℚ) : ℚ :=
  if units = "naut" then total / 24 else total / 44.448

/-- Tail worker for the consecutive-dedup loop (lines 242-245): `last` is the
last element already kept (`filtered_coords[-1]`). -/
def dedupAux (last : Coord) : List Coord → List Coord
  | [] => []
  | x :: xs => if x = last then dedupAux last xs else x :: dedupAux x xs

/-- The consecutive-duplicate removal loop of `create_guided_route`
(lines 241-245): keep the first point, then every point that differs from
the previously kept one. -/
def dedup : List Coord → List Coord
  | [] => []
  | x :: xs => x :: dedupAux x xs


/-! ## Merge point selection (`find_optimal_merge_point`, lines 67-119) -/

/-- The closest-point loop of `find_optimal_merge_point` (lines 76-84):
walk the route keeping the first index whose distance to the ship is
strictly smaller than every distance seen so far.  `acc = none` models
`min_dist = inf` (a finite distance always beats it). -/
def closestAux (gdist : Coord → Coord → ℚ) (pos : Coord) :
    List Coord → ℕ → Option (ℕ × ℚ) → ℕ
  | [], _, none => 0
  | [], _, some (j, _) => j
  | p :: rest, i, none => closestAux gdist pos rest (i + 1) (some (i, gdist pos p))
  | p :: rest, i, some (j, m) =>
      if gdist pos p < m then closestAux gdist pos rest (i + 1) (some (i, gdist pos p))
      else closestAux gdist pos rest (i + 1) (some (j, m))

/-- Index `closest_idx` as computed at lines 76-84: first index of a point at
minimal geodesic distance from the ship (0 for an empty route, as in the
Python initialisation). -/
def closestIdx (gdist : Coord → Coord → ℚ) (pos : Coord) (ref : List Coord) : ℕ :=
  closestAux gdist pos ref 0 none

/-- The scoring loop of `find_optimal_merge_point` (lines 88-110): walk the
candidate indices, skip those not kept (distance filter, line 95), and track
the strictly-best score seen so far. -/
def bestOpt (score : ℕ → ℚ) (keep : ℕ → Bool) :
    List ℕ → Option (ℕ × ℚ) → Option (ℕ × ℚ)
  | [], acc => acc
  | i :: rest, acc =>
      if keep i then
        match acc with
        | none => bestOpt score keep rest (some (i, score i))
        | some (j, s) =>
            if score i < s then bestOpt score keep rest (some (i, score i))
            else bestOpt score keep rest (some (j, s))
      else bestOpt score keep rest acc

/-- The score the code assigns to candidate index `i` (lines 92-105):
`dist_km + bearing_diff * 2`, where `bearing_diff` compares the bearing from
the ship to the candidate with the bearing from the ship to the LAST point
of the reference route (`reference_route[-1]`, line 100). -/
def codeScore (gdist bear : Coord → Coord → ℚ) (pos : Coord)
    (ref : List Coord) (i : ℕ) : ℚ :=
  gdist pos (ref.getD i cDef) +
    ang_diff (bear pos (ref.getD i cDef)) (bear pos (ref.getLastD cDef)) * 2

/-- The candidate filter of line 95: a candidate is skipped when its distance
to the ship exceeds `max_deviation_km`, i.e. kept when it does not. -/
def codeKeep (gdist : Coord → Coord → ℚ) (pos : Coord) (ref : List Coord)
    (maxDev : ℚ) (i : ℕ) : Bool :=
  decide (gdist pos (ref.getD i cDef) ≤ maxDev)

/-- Function `find_optimal_merge_point` (lines 67-119).  Returns `none` for an empty
reference route, modelling the `IndexError` the Python code raises there
(`reference_route[forward_idx]` with `forward_idx = -1` on an empty list);
on a nonempty route it always returns an (index, coordinate) pair: either
the best-scoring candidate of the forward scan, or the fallback index
`min(closest_idx + len(route) // 4, len(route) - 1)` (lines 112-117). -/
def find_optimal_merge_point (gdist bear : Coord → Coord → ℚ) (pos : Coord)
    (ref : List Coord) (maxDev : ℚ) : Option (ℕ × Coord) :=
  match ref with
  | [] => none
  | _ :: _ =>
      let ci := closestIdx gdist pos ref
      match bestOpt (codeScore gdist bear pos ref)
          (codeKeep gdist pos ref maxDev)
          (List.range' ci (ref.length - ci)) none with
      | some (i, _) => some (i, ref.getD i cDef)
      | none =>
          let fi := min (ci + ref.length / 4) (ref.length - 1)
          some (fi, ref.getD fi cDef)

/-- Coordinate assembly of `create_optimized_route_from_position`
(lines 121-154), with the reference route supplied (the `reference_route is
None` branch calls the external pathfinder and is modelled at the call
sites).  `none` models the exception raised for an empty reference route.
The Python `merge_idx is None` branch (lines 137-139) is unreachable —
`find_optimal_merge_point` never returns `None` for the index — and so has
no counterpart here. -/
def optimizedCoords (gdist bear : Coord → Coord → ℚ) (pos dest : Coord)
    (ref : List Coord) : Option (List Coord) :=
  match find_optimal_merge_point gdist bear pos ref 200 with
  | none => none
  | some (mi, mp) =>
      let rc := if 100 < gdist pos mp * 1000 then [pos, mp] else [pos]
      let rc := rc ++ ref.drop (mi + 1)
      some (if rc.getLastD cDef ≠ dest then rc ++ [dest] else rc)

/-! ## Guided route builder (`create_guided_route`, lines 179-268) -/

/-- The best-aligned-start loop of `create_guided_route` (lines 213-224):
fold over candidate indices keeping the first index whose bearing difference
is strictly smaller than everything seen so far, starting from
`best_start_idx = 1`, `best_bearing_diff = 180`. -/
def bestStartScan (diffAt : ℕ → ℚ) : List ℕ → ℕ × ℚ → ℕ × ℚ
  | [], acc => acc
  | i :: rest, (b, bd) =>
      if diffAt i < bd then bestStartScan diffAt rest (i, diffAt i)
      else bestStartScan diffAt rest (b, bd)

/-- Index `best_start_idx` (lines 213-224): scanned over `range(1, min(len, 5))`. -/
def bestStartIdx (bear : Coord → Coord → ℚ) (pos dest : Coord)
    (refc : List Coord) : ℕ :=
  let diffAt := fun i =>
    ang_diff (bear pos (refc.getD i cDef)) (bear pos dest)
  (bestStartScan diffAt (List.range' 1 (min refc.length 5 - 1)) (1, 180)).1

/-- The stride sampling of line 227: `range(best_start_idx, len, spacing)`
mapped through the reference route. -/
def sampled (refc : List Coord) (b spacing : ℕ) : List Coord :=
  (List.range' b ((refc.length - b + spacing - 1) / spacing) spacing).map
    (fun i => refc.getD i cDef)

/-- Everything `create_guided_route` appends after the initial
`new_coords = [ship_position]` (lines 206-235): nothing when the reference
route has at most 2 points; otherwise the strided sample starting at
`best_start_idx`, plus the second-to-last reference point when the stride
would stop more than one gap short of the end (lines 230-235). -/
def guidedTail (bear : Coord → Coord → ℚ) (pos dest : Coord) (spacing : ℕ)
    (refc : List Coord) : List Coord :=
  if 2 < refc.length then
    let b := bestStartIdx bear pos dest refc
    let s := sampled refc b spacing
    if spacing < refc.length then
      let lastAdded := b + ((refc.length - b - 1) / spacing) * spacing
      if lastAdded < refc.length - 2 then
        s ++ [refc.getD (refc.length - 2) cDef]
      else s
    else s
  else []

/-- Coordinate assembly of `create_guided_route` (lines 206-245) given the
effective (post-retry) reference route: start from the ship position, append
the guided tail, append the destination when the last point differs from it,
then drop consecutive duplicates. -/
def guidedCoords (bear : Coord → Coord → ℚ) (pos dest : Coord) (spacing : ℕ)
    (refc : List Coord) : List Coord :=
  let newC := pos :: guidedTail bear pos dest spacing refc
  let newC := if newC.getLastD cDef ≠ dest then newC ++ [dest] else newC
  dedup newC

/-- The reference route `create_guided_route` ends up using (lines 184-203):
the pathfinder's answer for (start, destination), except that when it has at
most 2 points a retry with offset endpoints (+0.1 on both components of the
origin, -0.1 on both components of the destination) replaces it — but only when the retry
succeeds and yields strictly more than 2 points.  `sr` models the external
`searoute` call; `none` models an exception (which the first call
propagates, lines 188-189, and the retry swallows, lines 202-203). -/
def effectiveRef (sr : Coord → Coord → Option (List Coord))
    (pos dest : Coord) : Option (List Coord) :=
  match sr pos dest with
  | none => none
  | some ref =>
      if ref.length ≤ 2 then
        match sr (pos.1 + 0.1, pos.2 + 0.1) (dest.1 - 0.1, dest.2 - 0.1) with
        | some alt => if 2 < alt.length then some alt else some ref
        | none => some ref
      else some ref

/-- The coordinate sequence returned by `create_guided_route`
(lines 179-268): the guided assembly applied to the effective reference
route; `none` when the initial pathfinder call fails. -/
def create_guided_route (sr : Coord → Coord → Option (List Coord))
    (bear : Coord → Coord → ℚ) (pos dest : Coord) (spacing : ℕ) :
    Option (List Coord) :=
  (effectiveRef sr pos dest).map (guidedCoords bear pos dest spacing)

/-! ## GeoJSON feature model and the `/route` course filter -/

/-- The `"properties"`-carrying result object built at lines 162-175 and
252-266 and post-processed at lines 313-315.  Diagnostic fields absent from
a given route type are `none`. -/
structure Feature where
  coordinates : List Coord
  length : ℚ
  units : String
  durationHours : ℚ
  routeType : String
  mergePointIndex : Option ℕ
  referencePointsUsed : Option ℕ
  waypointsCreated : Option ℕ
  deriving DecidableEq

/-- The feature built by `create_guided_route` (lines 252-266). -/
def guidedFeature (sr : Coord → Coord → Option (List Coord))
    (bear gdist : Coord → Coord → ℚ) (pos dest : Coord) (units : String)
    (spacing : ℕ) : Option Feature :=
  (effectiveRef sr pos dest).map fun refc =>
    let fc := guidedCoords bear pos dest spacing refc
    let td := routeLength gdist units fc
    { coordinates := fc
      length := td
      units := units
      durationHours := durationHours units td
      routeType := "guided"
      mergePointIndex := none
      referencePointsUsed := some refc.length
      waypointsCreated := some fc.length }

/-- The `i_keep` scan of the course filter (lines 296-301): `k` is the index
of the head of the remaining list; return the first index whose waypoint
satisfies the predicate, or one past the end. -/
def iKeepAux (p : Coord → Bool) : List Coord → ℕ → ℕ
  | [], k => k
  | x :: xs, k => if p x then k else iKeepAux p xs (k + 1)

/-- The course-filter rebuild of the `/route` handler (lines 294-306) on a
coordinate list: find the first waypoint (index ≥ 1) whose bearing from the
first coordinate is within `heading_tol` of `course`, keep
`[coords[0]] + coords[i_keep:]`, and append the destination when missing.
The handler only runs this when `len(coords) > 1`; the `[]` case is
unreachable there. -/
def courseFilterCoords (bear : Coord → Coord → ℚ) (dest : Coord)
    (course tol : ℚ) : List Coord → List Coord
  | [] => []
  | c0 :: rest =>
      let ik := iKeepAux (fun c => decide (ang_diff (bear c0 c) course ≤ tol))
        rest 1
      let fc := c0 :: (c0 :: rest).drop ik
      if fc.getLastD cDef ≠ dest then fc ++ [dest] else fc

/-- The course-filter step of the `/route` handler at feature level
(lines 295-315): when a course is supplied and the route has more than one
coordinate, replace the geometry coordinates and recompute `length` and
`duration_hours`; every other property is copied unchanged. -/
def applyCourseFilter (gdist bear : Coord → Coord → ℚ) (dest : Coord)
    (course tol : ℚ) (f : Feature) : Feature :=
  if 1 < f.coordinates.length then
    let fc := courseFilterCoords bear dest course tol f.coordinates
    let td := routeLength gdist f.units fc
    { coordinates := fc
      length := td
      units := f.units
      durationHours := durationHours f.units td
      routeType := f.routeType
      mergePointIndex := f.mergePointIndex
      referencePointsUsed := f.referencePointsUsed
      waypointsCreated := f.waypointsCreated }
  else f

/-! ## Concrete geodesy instances for counterexamples and witnesses

`pxyDist` and `pxyBear` are computable stand-ins for the geodesic distance
and the spherical bearing, used only at axis-aligned configurations where
they agree with the real values: along the equator the geodesic is about
111.32 km per degree of longitude, along a meridian about 110.57 km per
degree of latitude, and the Python `_bearing` returns exactly 90.0 / 270.0
due east/west along the equator, exactly 0.0 / 180.0 due north/south, and
0.0 for coincident points (`atan2(0, 0) = 0`). -/

/-- Per-axis degree-to-kilometre proxy for the geodesic distance. -/
def pxyDist (p q : Coord) : ℚ :=
  (11132 * pyabs (p.1 - q.1) + 11057 * pyabs (p.2 - q.2)) / 100

/-- Axis-aligned proxy for `_bearing`. -/
def pxyBear (p q : Coord) : ℚ :=
  if p.1 < q.1 then 90
  else if q.1 < p.1 then 270
  else if p.2 < q.2 then 0
  else if q.2 < p.2 then 180
  else 0

/-- The merge-candidate score as the specification words it (spec §4.3
step 2): `distance(start, referenceRoute[i]) +
2 × angularDifference(bearing(start, referenceRoute[i]),
bearing(start, destination))`, with `destination` the caller-supplied
destination of the composed route.  Stated for comparison with `codeScore`,
which uses the last reference-route point instead of the destination. -/
def specScore (gdist bear : Coord → Coord → ℚ) (pos dest : Coord)
    (ref : List Coord) (i : ℕ) : ℚ :=
  gdist pos (ref.getD i cDef) +
    2 * ang_diff (bear pos (ref.getD i cDef)) (bear pos dest)

/-! ## Helper lemmas -/

theorem dedupAux_chain' (l : List Coord) :
    ∀ x : Coord, List.Chain' (· ≠ ·) (x :: dedupAux x l) := by
  induction l with
  | nil => intro x; simp [dedupAux]
  | cons y ys ih =>
      intro x
      by_cases h : y = x
      · simpa [dedupAux, h] using ih x
      · simp only [dedupAux, if_neg h]
        exact List.Chain'.cons (fun hxy => h hxy.symm) (ih y)

/-- The output of `dedup` never has two equal consecutive elements. -/
theorem dedup_chain' (l : List Coord) : List.Chain' (· ≠ ·) (dedup l) := by
  cases l with
  | nil => simp [dedup]
  | cons x xs => exact dedupAux_chain' xs x

theorem dedupAux_getLastD (l : List Coord) :
    ∀ x d : Coord, (x :: dedupAux x l).getLastD d = (x :: l).getLastD d := by
  induction l with
  | nil => intro x d; rfl
  | cons y ys ih =>
      intro x d
      by_cases h : y = x
      · subst h
        simp only [dedupAux, if_pos rfl]
        calc (y :: dedupAux y ys).getLastD d
            = (y :: ys).getLastD d := ih y d
          _ = ys.getLastD y := List.getLastD_cons ..
          _ = (y :: ys).getLastD y := (List.getLastD_cons ..).symm
          _ = (y :: y :: ys).getLastD d := (List.getLastD_cons ..).symm
      · simp only [dedupAux, if_neg h]
        calc (x :: y :: dedupAux y ys).getLastD d
            = (y :: dedupAux y ys).getLastD x := List.getLastD_cons ..
          _ = (y :: ys).getLastD x := ih y x
          _ = (x :: y :: ys).getLastD d := (List.getLastD_cons ..).symm

/-- Applying `dedup` preserves the last element of a nonempty list. -/
theorem dedup_getLastD (x : Coord) (xs : List Coord) (d : Coord) :
    (dedup (x :: xs)).getLastD d = (x :: xs).getLastD d := by
  simpa [dedup] using dedupAux_getLastD xs x d

theorem getLastD_append_single (l : List Coord) (a : Coord) :
    ∀ d, (l ++ [a]).getLastD d = a := by
  induction l with
  | nil => intro d; rfl
  | cons x xs ih => intro d; rw [List.cons_append, List.getLastD_cons, ih]

theorem closestAux_lt (gdist : Coord → Coord → ℚ) (pos : Coord) :
    ∀ (rest : List Coord) (i j : ℕ) (m : ℚ) (n : ℕ), j < n →
      i + rest.length ≤ n → closestAux gdist pos rest i (some (j, m)) < n := by
  intro rest
  induction rest with
  | nil => intro i j m n hj _; simpa [closestAux] using hj
  | cons p ps ih =>
      intro i j m n hj hn
      simp only [List.length_cons] at hn
      simp only [closestAux]
      split
      · exact ih (i + 1) i (gdist pos p) n (by omega) (by omega)
      · exact ih (i + 1) j m n hj (by omega)

/-- On a nonempty route the closest index is a valid index. -/
theorem closestIdx_lt (gdist : Coord → Coord → ℚ) (pos : Coord)
    (p : Coord) (ps : List Coord) :
    closestIdx gdist pos (p :: ps) < (p :: ps).length := by
  simp only [closestIdx, closestAux]
  exact closestAux_lt gdist pos ps 1 0 (gdist pos p) (p :: ps).length
    (by simp) (by simp [Nat.add_comm])

theorem bestOpt_some_ne_none (score : ℕ → ℚ) (keep : ℕ → Bool) :
    ∀ (l : List ℕ) (x : ℕ × ℚ), bestOpt score keep l (some x) ≠ none := by
  intro l
  induction l with
  | nil => intro x h; exact Option.noConfusion h
  | cons i rest ih =>
      intro x
      obtain ⟨j, s⟩ := x
      simp only [bestOpt]
      split
      · split <;> exact ih _
      · exact ih _

/-- Running `bestOpt` starting from `none` returns `none` exactly when no index in
the list passes the filter. -/
theorem bestOpt_none_iff (score : ℕ → ℚ) (keep : ℕ → Bool) :
    ∀ l : List ℕ, bestOpt score keep l none = none ↔ ∀ i ∈ l, keep i = false := by
  intro l
  induction l with
  | nil => simp [bestOpt]
  | cons i rest ih =>
      simp only [bestOpt]
      by_cases h : keep i
      · simp only [if_pos h]
        constructor
        · intro hc; exact absurd hc (bestOpt_some_ne_none score keep rest _)
        · intro hall
          exact absurd h (by simpa using hall i (by simp))
      · simp only [if_neg h, ih]
        constructor
        · intro hall j hj
          rcases List.mem_cons.mp hj with rfl | hj'
          · simpa using h
          · exact hall j hj'
        · intro hall j hj
          exact hall j (List.mem_cons_of_mem i hj)

/-- Full characterisation of the tracking loop: a returned pair carries the
score of its index, comes from the list (or from the initial accumulator),
never exceeds the score of any kept index of the list, and never exceeds the
initial accumulator's score. -/
theorem bestOpt_spec (score : ℕ → ℚ) (keep : ℕ → Bool) :
    ∀ (l : List ℕ) (acc : Option (ℕ × ℚ)) (j : ℕ) (s : ℚ),
      bestOpt score keep l acc = some (j, s) →
      ((j ∈ l ∧ keep j = true ∧ s = score j) ∨ acc = some (j, s)) ∧
      (∀ i ∈ l, keep i = true → s ≤ score i) ∧
      (∀ j' s', acc = some (j', s') → s ≤ s') := by
  intro l
  induction l with
  | nil =>
      intro acc j s h
      simp only [bestOpt] at h
      refine ⟨Or.inr h, by simp, ?_⟩
      intro j' s' hacc
      rw [h] at hacc
      cases hacc
      exact le_refl s
  | cons i rest ih =>
      intro acc j s h
      simp only [bestOpt] at h
      by_cases hk : keep i
      · rw [if_pos hk] at h
        match acc with
        | none =>
            obtain ⟨hmem, hmin, hacc⟩ := ih (some (i, score i)) j s h
            refine ⟨?_, ?_, by simp⟩
            · rcases hmem with ⟨hj, hkj, hs⟩ | heq
              · exact Or.inl ⟨List.mem_cons_of_mem i hj, hkj, hs⟩
              · cases heq
                exact Or.inl ⟨by simp, hk, rfl⟩
            · intro i' hi' hki'
              rcases List.mem_cons.mp hi' with rfl | hi''
              · exact hacc i' (score i') rfl
              · exact hmin i' hi'' hki'
        | some (j₀, s₀) =>
            dsimp only at h
            by_cases hlt : score i < s₀
            · rw [if_pos hlt] at h
              obtain ⟨hmem, hmin, hacc⟩ := ih (some (i, score i)) j s h
              refine ⟨?_, ?_, ?_⟩
              · rcases hmem with ⟨hj, hkj, hs⟩ | heq
                · exact Or.inl ⟨List.mem_cons_of_mem i hj, hkj, hs⟩
                · cases heq
                  exact Or.inl ⟨by simp, hk, rfl⟩
              · intro i' hi' hki'
                rcases List.mem_cons.mp hi' with rfl | hi''
                · exact hacc i' (score i') rfl
                · exact hmin i' hi'' hki'
              · intro j' s' hj'
                cases hj'
                exact le_of_lt (lt_of_le_of_lt (hacc i (score i) rfl) hlt)
            · rw [if_neg hlt] at h
              obtain ⟨hmem, hmin, hacc⟩ := ih (some (j₀, s₀)) j s h
              push_neg at hlt
              refine ⟨?_, ?_, ?_⟩
              · rcases hmem with ⟨hj, hkj, hs⟩ | heq
                · exact Or.inl ⟨List.mem_cons_of_mem i hj, hkj, hs⟩
                · exact Or.inr heq
              · intro i' hi' hki'
                rcases List.mem_cons.mp hi' with rfl | hi''
                · exact le_trans (hacc j₀ s₀ rfl) hlt
                · exact hmin i' hi'' hki'
              · intro j' s' hj'
                cases hj'
                exact hacc j₀ s₀ rfl
      · rw [if_neg hk] at h
        obtain ⟨hmem, hmin, hacc⟩ := ih acc j s h
        refine ⟨?_, ?_, hacc⟩
        · rcases hmem with ⟨hj, hkj, hs⟩ | heq
          · exact Or.inl ⟨List.mem_cons_of_mem i hj, hkj, hs⟩
          · exact Or.inr heq
        · intro i' hi' hki'
          rcases List.mem_cons.mp hi' with rfl | hi''
          · exact absurd hki' (by simpa using hk)
          · exact hmin i' hi'' hki'

/-! ## Claims -/

/-- Claim C8: For every pair of coordinates, `calculate_distance` in nautical
miles equals the kilometre value times 0.539957 and the miles value equals
the kilometre value times 0.621371 (exactly, hence within the claimed 1e-6
relative tolerance), and every units string other than `"km"` and `"naut"`
yields the miles value. -/
theorem C8_unit_conversions (gdist : Coord → Coord → ℚ) (p1 p2 : Coord) :
    calculate_distance gdist p1 p2 "naut"
        = calculate_distance gdist p1 p2 "km" * 0.539957 ∧
    calculate_distance gdist p1 p2 "mi"
        = calculate_distance gdist p1 p2 "km" * 0.621371 ∧
    ∀ units : String, units ≠ "km" → units ≠ "naut" →
      calculate_distance gdist p1 p2 units
        = calculate_distance gdist p1 p2 "mi" := by
  refine ⟨by simp [calculate_distance], by simp [calculate_distance], ?_⟩
  intro units h1 h2
  simp [calculate_distance, h1, h2]

/-- Witness for C8: concrete evaluation at the equator points `(0,0)` and
`(1,0)` with the proxy geodesic, including the fallback for the
unrecognised unit string `"furlongs"`. -/
theorem C8_unit_conversions_witness :
    calculate_distance pxyDist (0, 0) (1, 0) "naut"
        = calculate_distance pxyDist (0, 0) (1, 0) "km" * 0.539957 ∧
    calculate_distance pxyDist (0, 0) (1, 0) "furlongs"
        = calculate_distance pxyDist (0, 0) (1, 0) "mi" :=
  ⟨(C8_unit_conversions pxyDist (0, 0) (1, 0)).1,
   (C8_unit_conversions pxyDist (0, 0) (1, 0)).2.2 "furlongs"
     (by decide) (by decide)⟩

/-- Claim C9: The course-filter step of the `/route` handler only rewrites the
coordinates, the length and the duration; `units`, `route_type` and the
diagnostic fields (`merge_point_index`, `reference_points_used`,
`waypoints_created`) of the feature are unchanged. -/
theorem C9_course_filter_frame (gdist bear : Coord → Coord → ℚ)
    (dest : Coord) (course tol : ℚ) (f : Feature) :
    (applyCourseFilter gdist bear dest course tol f).units = f.units ∧
    (applyCourseFilter gdist bear dest course tol f).routeType
        = f.routeType ∧
    (applyCourseFilter gdist bear dest course tol f).mergePointIndex
        = f.mergePointIndex ∧
    (applyCourseFilter gdist bear dest course tol f).referencePointsUsed
        = f.referencePointsUsed ∧
    (applyCourseFilter gdist bear dest course tol f).waypointsCreated
        = f.waypointsCreated := by
  unfold applyCourseFilter
  split <;> simp

/-- Claim C1, counterexample: `create_optimized_route_from_position` performs
no deduplication: with start `(0,0)`, destination `(2,0)` and the supplied
reference route `[(0,0), (1,0), (1,0), (2,0)]` (equator points; the proxy
geodesy agrees with the real one on every comparison made), the merge point
is index 1 and the returned coordinates keep the duplicated `(1,0)` pair,
so two consecutive coordinates are exactly equal. -/
theorem C1_optimized_duplicates_counterexample :
    optimizedCoords pxyDist pxyBear (0, 0) (2, 0)
        [(0, 0), (1, 0), (1, 0), (2, 0)]
      = some [(0, 0), (1, 0), (1, 0), (2, 0)] ∧
    ¬ List.Chain' (· ≠ ·) [((0 : ℚ), (0 : ℚ)), (1, 0), (1, 0), (2, 0)] := by
  constructor
  · norm_num [optimizedCoords, find_optimal_merge_point, closestIdx,
      closestAux, bestOpt, codeScore, codeKeep, ang_diff, pymod, pyabs,
      pxyDist, pxyBear, cDef, List.range', Prod.ext_iff]
  · simp [List.chain'_cons]

/-- Claim C1, amended: The deduplication invariant holds for every route
returned by `create_guided_route` (whose last step is the dedup loop of
lines 241-245); it does not hold for `create_optimized_route_from_position`
or for the course-filtered route (see the counterexample). -/
theorem C1_guided_no_consecutive_duplicates
    (sr : Coord → Coord → Option (List Coord)) (bear : Coord → Coord → ℚ)
    (pos dest : Coord) (spacing : ℕ) (l : List Coord) :
    create_guided_route sr bear pos dest spacing = some l →
    List.Chain' (· ≠ ·) l := by
  intro h
  unfold create_guided_route at h
  cases he : effectiveRef sr pos dest with
  | none => rw [he] at h; exact absurd h (by simp)
  | some ref =>
      rw [he] at h
      simp only [Option.map_some'] at h
      cases h
      exact dedup_chain' _

/-- Witness for C1 amended: the degenerate two-point pathfinder answer for
start `(0,0)`, destination `(5,5)` yields the guided route
`[(0,0), (5,5)]`, which has no consecutive duplicates. -/
theorem C1_guided_no_consecutive_duplicates_witness :
    List.Chain' (· ≠ ·) [((0 : ℚ), (0 : ℚ)), (5, 5)] :=
  C1_guided_no_consecutive_duplicates (fun _ _ => some [(0, 0), (1, 1)])
    pxyBear (0, 0) (5, 5) 3 [(0, 0), (5, 5)] (by rfl)

/-- Claim C2: Endpoint invariant.  (a) Every coordinate list returned by
`create_optimized_route_from_position` starts with the caller-supplied start
and ends with the caller-supplied destination (appended when missing);
(b) likewise for `create_guided_route` (for any effective reference route);
(c) the course filter keeps the first coordinate of its input (which is the
start for routes coming from (a) or (b)) and ends at the destination.  All
comparisons are exact value comparisons. -/
theorem C2_endpoints (gdist bear : Coord → Coord → ℚ) (pos dest c0 : Coord)
    (ref refc rest : List Coord) (spacing : ℕ) (course tol : ℚ) :
    (∀ oc, optimizedCoords gdist bear pos dest ref = some oc →
        oc.head? = some pos ∧ oc.getLastD cDef = dest) ∧
    ((guidedCoords bear pos dest spacing refc).head? = some pos ∧
      (guidedCoords bear pos dest spacing refc).getLastD cDef = dest) ∧
    ((courseFilterCoords bear dest course tol (c0 :: rest)).head? = some c0 ∧
      (courseFilterCoords bear dest course tol (c0 :: rest)).getLastD cDef
        = dest) := by
  refine ⟨?_, ?_, ?_⟩
  · intro oc h
    unfold optimizedCoords at h
    cases hm : find_optimal_merge_point gdist bear pos ref 200 with
    | none => rw [hm] at h; exact absurd h (by simp)
    | some ip =>
        obtain ⟨mi, mp⟩ := ip
        rw [hm] at h
        simp only [Option.some.injEq] at h
        subst h
        by_cases hc : 100 < gdist pos mp * 1000
        · simp only [if_pos hc]
          refine ⟨?_, ?_⟩
          · split <;> rfl
          · split
            · exact getLastD_append_single (pos :: mp :: ref.drop (mi + 1))
                dest cDef
            · next hn => exact not_not.mp hn
        · simp only [if_neg hc]
          refine ⟨?_, ?_⟩
          · split <;> rfl
          · split
            · exact getLastD_append_single (pos :: ref.drop (mi + 1)) dest cDef
            · next hn => exact not_not.mp hn
  · simp only [guidedCoords]
    refine ⟨?_, ?_⟩
    · split
      · rw [List.cons_append]; simp [dedup]
      · simp [dedup]
    · split
      · next hl =>
          rw [List.cons_append, dedup_getLastD]
          exact getLastD_append_single (pos :: guidedTail bear pos dest
            spacing refc) dest cDef
      · next hl =>
          rw [dedup_getLastD]
          exact not_not.mp hl
  · simp only [courseFilterCoords]
    refine ⟨?_, ?_⟩
    · split <;> rfl
    · split
      · next hl =>
          exact getLastD_append_single (c0 :: (c0 :: rest).drop
            (iKeepAux (fun c => decide (ang_diff (bear c0 c) course ≤ tol))
              rest 1)) dest cDef
      · next hl => exact not_not.mp hl

/-- Witness for C2: with the proxy geodesy, start `(0,0)`, destination
`(2,0)` and reference route `[(0,0), (1,0), (2,0)]`, the optimized route is
`[(0,0), (1,0), (2,0)]`; its endpoints, the guided endpoints for the same
data, and the course-filtered endpoints (course 90°, tolerance 45°) are all
as claimed. -/
theorem C2_endpoints_witness :
    ([((0 : ℚ), (0 : ℚ)), (1, 0), (2, 0)].head? = some (0, 0) ∧
      [((0 : ℚ), (0 : ℚ)), (1, 0), (2, 0)].getLastD cDef = (2, 0)) ∧
    ((guidedCoords pxyBear (0, 0) (2, 0) 3 [(0, 0), (1, 0), (2, 0)]).head?
        = some (0, 0) ∧
      (guidedCoords pxyBear (0, 0) (2, 0) 3
          [(0, 0), (1, 0), (2, 0)]).getLastD cDef = (2, 0)) ∧
    ((courseFilterCoords pxyBear (2, 0) 90 45 ((0, 0) :: [(1, 0), (2, 0)])).head?
        = some (0, 0) ∧
      (courseFilterCoords pxyBear (2, 0) 90 45
          ((0, 0) :: [(1, 0), (2, 0)])).getLastD cDef = (2, 0)) := by
  obtain ⟨h1, h2, h3⟩ := C2_endpoints pxyDist pxyBear (0, 0) (2, 0) (0, 0)
    [(0, 0), (1, 0), (2, 0)] [(0, 0), (1, 0), (2, 0)] [(1, 0), (2, 0)] 3 90 45
  refine ⟨h1 [(0, 0), (1, 0), (2, 0)] ?_, h2, h3⟩
  norm_num [optimizedCoords, find_optimal_merge_point, closestIdx,
    closestAux, bestOpt, codeScore, codeKeep, ang_diff, pymod, pyabs,
    pxyDist, pxyBear, cDef, List.range', Prod.ext_iff]

theorem iKeepAux_all_false (p : Coord → Bool) :
    ∀ (xs : List Coord) (k : ℕ), (∀ x ∈ xs, p x = false) →
      iKeepAux p xs k = k + xs.length := by
  intro xs
  induction xs with
  | nil => intro k _; simp [iKeepAux]
  | cons x rest ih =>
      intro k hall
      have hx : p x = false := hall x (by simp)
      simp only [iKeepAux, hx, Bool.false_eq_true, if_false, List.length_cons]
      rw [ih (k + 1) (fun y hy => hall y (List.mem_cons_of_mem x hy))]
      omega

/-- Claim C3, counterexample: With the eastbound route
`[(0,0), (1,0), (2,0)]`, course 180° and tolerance 45°, no waypoint is
within tolerance (both bearings from `(0,0)` are 90°, so the angular
difference is 90° > 45°), yet the filtered route is `[(0,0), (2,0)]`, NOT
the unchanged original sequence the claim asserts: the filter drops every
intermediate waypoint rather than acting as a no-op. -/
theorem C3_course_filter_counterexample :
    ¬ ang_diff (pxyBear (0, 0) (1, 0)) 180 ≤ 45 ∧
    ¬ ang_diff (pxyBear (0, 0) (2, 0)) 180 ≤ 45 ∧
    courseFilterCoords pxyBear (2, 0) 180 45 [(0, 0), (1, 0), (2, 0)]
      = [(0, 0), (2, 0)] ∧
    ([((0 : ℚ), (0 : ℚ)), (2, 0)] : List Coord)
      ≠ [(0, 0), (1, 0), (2, 0)] := by
  refine ⟨?_, ?_, ?_, by simp⟩
  · norm_num [ang_diff, pymod, pyabs, pxyBear]
  · norm_num [ang_diff, pymod, pyabs, pxyBear]
  · norm_num [courseFilterCoords, iKeepAux, ang_diff, pymod, pyabs,
      pxyBear, cDef, Prod.ext_iff]

/-- Claim C3, amended: When no waypoint `k ≥ 1` satisfies
`angularDifference(bearing(coords[0], coords[k]), course) ≤ headingTol`, the
scan runs off the end and the filtered route is `[coords[0], destination]`
(just `[coords[0]]` when `coords[0]` already equals the destination): the
filter drops the entire original tail instead of keeping the sequence
unchanged. -/
theorem C3_course_filter_no_match (bear : Coord → Coord → ℚ)
    (dest c0 : Coord) (course tol : ℚ) (rest : List Coord) :
    (∀ c ∈ rest, ¬ ang_diff (bear c0 c) course ≤ tol) →
    courseFilterCoords bear dest course tol (c0 :: rest)
      = if c0 = dest then [c0] else [c0, dest] := by
  intro hall
  simp only [courseFilterCoords]
  rw [iKeepAux_all_false (fun c => decide (ang_diff (bear c0 c) course ≤ tol))
    rest 1 (fun x hx => by simpa using hall x hx)]
  rw [show (1 + rest.length) = (c0 :: rest).length by simp [Nat.add_comm],
    List.drop_length]
  by_cases hd : c0 = dest
  · subst hd
    rw [if_neg (show ¬(([c0] : List Coord).getLastD cDef ≠ c0) from
        not_not_intro rfl), if_pos rfl]
  · rw [if_neg hd,
      if_pos (show ([c0] : List Coord).getLastD cDef ≠ dest from hd)]
    rfl

/-- Witness for C3 amended: the concrete eastbound route of the
counterexample, where the scan finds no matching waypoint and the filter
returns exactly `[start, destination]`. -/
theorem C3_course_filter_no_match_witness :
    courseFilterCoords pxyBear (2, 0) 180 45 ((0, 0) :: [(1, 0), (2, 0)])
      = [(0, 0), (2, 0)] := by
  rw [C3_course_filter_no_match pxyBear (2, 0) (0, 0) 180 45 [(1, 0), (2, 0)]
    (by intro c hc
        simp only [List.mem_cons, List.not_mem_nil, or_false] at hc
        rcases hc with rfl | rfl
        · norm_num [ang_diff, pymod, pyabs, pxyBear]
        · norm_num [ang_diff, pymod, pyabs, pxyBear])]
  norm_num [Prod.ext_iff]

/-- Claim C4, counterexample: `find_optimal_merge_point` never sees the
caller-supplied destination: it scores against the LAST reference-route
point (line 100).  With start `(0,0)`, composed-route destination `(0,1)`
(due north) and reference route `[(0.5,0), (0,0.5), (0,-1)]` whose last
point lies due south, the selector returns index 2, although the scanned
candidate 1 (at or beyond the closest index, within the 200 km deviation
bound) has a strictly smaller score under the claim's formula
`distance + 2 × angularDifference(bearing(start, candidate),
bearing(start, destination))`.  So the returned index does not minimise the
claimed score. -/
theorem C4_spec_score_counterexample :
    find_optimal_merge_point pxyDist pxyBear (0, 0)
        [(1/2, 0), (0, 1/2), (0, -1)] 200 = some (2, (0, -1)) ∧
    closestIdx pxyDist (0, 0) [(1/2, 0), (0, 1/2), (0, -1)] ≤ 1 ∧
    pxyDist (0, 0) (0, 1/2) ≤ 200 ∧
    specScore pxyDist pxyBear (0, 0) (0, 1) [(1/2, 0), (0, 1/2), (0, -1)] 1
      < specScore pxyDist pxyBear (0, 0) (0, 1)
          [(1/2, 0), (0, 1/2), (0, -1)] 2 := by
  refine ⟨?_, ?_, by norm_num [pxyDist, pyabs], ?_⟩
  · norm_num [find_optimal_merge_point, closestIdx, closestAux, bestOpt,
      codeScore, codeKeep, ang_diff, pymod, pyabs, pxyDist, pxyBear, cDef,
      List.range', Prod.ext_iff]
  · norm_num [closestIdx, closestAux, pxyDist, pyabs]
  · norm_num [specScore, ang_diff, pymod, pyabs, pxyDist, pxyBear, cDef]

/-- Claim C4, amended: Every scanned candidate within the deviation bound is
scored as `distance(start, ref[i]) + 2 × angularDifference(bearing(start,
ref[i]), bearing(start, ref[-1]))` — the direction reference being the LAST
point of the reference route, not the caller-supplied destination — and the
selector returns the (earliest) minimum-score candidate whenever at least
one candidate passes the bound. -/
theorem C4_code_score_minimum (gdist bear : Coord → Coord → ℚ) (pos : Coord)
    (ref : List Coord) (maxDev : ℚ) (i₀ : ℕ)
    (hci : closestIdx gdist pos ref ≤ i₀) (hlen : i₀ < ref.length)
    (hdev : gdist pos (ref.getD i₀ cDef) ≤ maxDev) :
    ∃ i, find_optimal_merge_point gdist bear pos ref maxDev
        = some (i, ref.getD i cDef) ∧
      closestIdx gdist pos ref ≤ i ∧ i < ref.length ∧
      gdist pos (ref.getD i cDef) ≤ maxDev ∧
      ∀ j, closestIdx gdist pos ref ≤ j → j < ref.length →
        gdist pos (ref.getD j cDef) ≤ maxDev →
        codeScore gdist bear pos ref i ≤ codeScore gdist bear pos ref j := by
  have hne : ref ≠ [] := by
    intro h; rw [h] at hlen; exact absurd hlen (by simp)
  obtain ⟨r, rs, rfl⟩ := List.exists_cons_of_ne_nil hne
  have hciLen : closestIdx gdist pos (r :: rs) < (r :: rs).length :=
    closestIdx_lt gdist pos r rs
  have hmemL : ∀ m, m ∈ List.range' (closestIdx gdist pos (r :: rs))
      ((r :: rs).length - closestIdx gdist pos (r :: rs)) ↔
      closestIdx gdist pos (r :: rs) ≤ m ∧ m < (r :: rs).length := by
    intro m
    rw [List.mem_range'_1]
    constructor
    · rintro ⟨h1, h2⟩; exact ⟨h1, by omega⟩
    · rintro ⟨h1, h2⟩; exact ⟨h1, by omega⟩
  cases hb : bestOpt (codeScore gdist bear pos (r :: rs))
      (codeKeep gdist pos (r :: rs) maxDev)
      (List.range' (closestIdx gdist pos (r :: rs))
        ((r :: rs).length - closestIdx gdist pos (r :: rs))) none with
  | none =>
      exfalso
      have hall := (bestOpt_none_iff _ _ _).mp hb i₀
        ((hmemL i₀).mpr ⟨hci, hlen⟩)
      simp only [codeKeep, decide_eq_false_iff_not] at hall
      exact hall hdev
  | some js =>
      obtain ⟨j, s⟩ := js
      obtain ⟨hmem, hmin, _⟩ := bestOpt_spec _ _ _ none j s hb
      rcases hmem with ⟨hjL, hkj, hs⟩ | habs
      · obtain ⟨hjlo, hjhi⟩ := (hmemL j).mp hjL
        simp only [codeKeep, decide_eq_true_eq] at hkj
        refine ⟨j, ?_, hjlo, hjhi, hkj, ?_⟩
        · unfold find_optimal_merge_point
          dsimp only
          rw [hb]
        · intro j' h1 h2 h3
          have := hmin j' ((hmemL j').mpr ⟨h1, h2⟩)
            (by simp only [codeKeep, decide_eq_true_eq]; exact h3)
          rw [hs] at this
          exact this
      · cases habs

/-- Witness for C4 amended: the counterexample configuration has candidate
index 1 within the deviation bound, so the amended theorem applies and the
selector returns the minimum of the code's own score. -/
theorem C4_code_score_minimum_witness :
    ∃ i, find_optimal_merge_point pxyDist pxyBear (0, 0)
        [(1/2, 0), (0, 1/2), (0, -1)] 200
        = some (i, [((1 : ℚ)/2, (0 : ℚ)), (0, 1/2), (0, -1)].getD i cDef) ∧
      closestIdx pxyDist (0, 0) [(1/2, 0), (0, 1/2), (0, -1)] ≤ i ∧
      i < 3 ∧
      pxyDist (0, 0) ([((1 : ℚ)/2, (0 : ℚ)), (0, 1/2), (0, -1)].getD i cDef)
        ≤ 200 ∧
      ∀ j, closestIdx pxyDist (0, 0) [(1/2, 0), (0, 1/2), (0, -1)] ≤ j →
        j < 3 →
        pxyDist (0, 0) ([((1 : ℚ)/2, (0 : ℚ)), (0, 1/2), (0, -1)].getD j cDef)
          ≤ 200 →
        codeScore pxyDist pxyBear (0, 0) [(1/2, 0), (0, 1/2), (0, -1)] i
          ≤ codeScore pxyDist pxyBear (0, 0) [(1/2, 0), (0, 1/2), (0, -1)] j :=
  C4_code_score_minimum pxyDist pxyBear (0, 0)
    [(1/2, 0), (0, 1/2), (0, -1)] 200 1
    (by norm_num [closestIdx, closestAux, pxyDist, pyabs])
    (by norm_num)
    (by norm_num [pxyDist, pyabs, cDef])

/-- Claim C5: For every non-empty reference route,
`find_optimal_merge_point` returns exactly one (index, coordinate) pair;
and when every scanned candidate (from the closest index forward) exceeds
the deviation bound, it returns the fallback index
`min(closestIdx + len(route) // 4, len(route) - 1)` with the reference
coordinate at that index. -/
theorem C5_always_returns (gdist bear : Coord → Coord → ℚ) (pos : Coord)
    (ref : List Coord) (maxDev : ℚ) (hne : ref ≠ []) :
    (∃ ip, find_optimal_merge_point gdist bear pos ref maxDev = some ip) ∧
    ((∀ j, closestIdx gdist pos ref ≤ j → j < ref.length →
        maxDev < gdist pos (ref.getD j cDef)) →
      find_optimal_merge_point gdist bear pos ref maxDev
        = some (min (closestIdx gdist pos ref + ref.length / 4)
              (ref.length - 1),
            ref.getD (min (closestIdx gdist pos ref + ref.length / 4)
              (ref.length - 1)) cDef)) := by
  obtain ⟨r, rs, rfl⟩ := List.exists_cons_of_ne_nil hne
  constructor
  · cases hb : bestOpt (codeScore gdist bear pos (r :: rs))
        (codeKeep gdist pos (r :: rs) maxDev)
        (List.range' (closestIdx gdist pos (r :: rs))
          ((r :: rs).length - closestIdx gdist pos (r :: rs))) none with
    | none =>
        refine ⟨(min (closestIdx gdist pos (r :: rs) + (r :: rs).length / 4)
            ((r :: rs).length - 1),
          (r :: rs).getD (min (closestIdx gdist pos (r :: rs)
              + (r :: rs).length / 4) ((r :: rs).length - 1)) cDef), ?_⟩
        unfold find_optimal_merge_point
        dsimp only
        rw [hb]
    | some js =>
        obtain ⟨j, s⟩ := js
        refine ⟨(j, (r :: rs).getD j cDef), ?_⟩
        unfold find_optimal_merge_point
        dsimp only
        rw [hb]
  · intro hfar
    have hb : bestOpt (codeScore gdist bear pos (r :: rs))
        (codeKeep gdist pos (r :: rs) maxDev)
        (List.range' (closestIdx gdist pos (r :: rs))
          ((r :: rs).length - closestIdx gdist pos (r :: rs))) none = none := by
      refine (bestOpt_none_iff _ _ _).mpr ?_
      intro i hi
      rw [List.mem_range'_1] at hi
      obtain ⟨h1, h2⟩ := hi
      have hiLen : i < (r :: rs).length := by
        have := closestIdx_lt gdist pos r rs
        omega
      have := hfar i h1 hiLen
      simp only [codeKeep, decide_eq_false_iff_not, not_le]
      exact this
    unfold find_optimal_merge_point
    dsimp only
    rw [hb]

/-- Witness for C5: the ship at `(0,0)` is more than 1100 km from every
point of the eastern reference route, so no candidate passes the 200 km
bound and the fallback index `min(0 + 5 // 4, 4) = 1` is returned with its
coordinate `(11,0)`. -/
theorem C5_always_returns_witness :
    find_optimal_merge_point pxyDist pxyBear (0, 0)
        [(10, 0), (11, 0), (12, 0), (13, 0), (14, 0)] 200
      = some (min (closestIdx pxyDist (0, 0)
            [(10, 0), (11, 0), (12, 0), (13, 0), (14, 0)]
            + [((10 : ℚ), (0 : ℚ)), (11, 0), (12, 0), (13, 0), (14, 0)].length
              / 4)
          ([((10 : ℚ), (0 : ℚ)), (11, 0), (12, 0), (13, 0), (14, 0)].length
            - 1),
        [((10 : ℚ), (0 : ℚ)), (11, 0), (12, 0), (13, 0), (14, 0)].getD
          (min (closestIdx pxyDist (0, 0)
              [(10, 0), (11, 0), (12, 0), (13, 0), (14, 0)]
              + [((10 : ℚ), (0 : ℚ)), (11, 0), (12, 0), (13, 0),
                  (14, 0)].length / 4)
            ([((10 : ℚ), (0 : ℚ)), (11, 0), (12, 0), (13, 0),
                (14, 0)].length - 1)) cDef) :=
  (C5_always_returns pxyDist pxyBear (0, 0)
      [(10, 0), (11, 0), (12, 0), (13, 0), (14, 0)] 200 (by simp)).2
    (by intro j h1 h2
        simp only [List.length_cons, List.length_nil] at h2
        interval_cases j <;> norm_num [pxyDist, pyabs, cDef])

/-- Claim C6: The index returned by `find_optimal_merge_point` is never less
than the closest index: scanned candidates all lie at or beyond it, and the
fallback `min(closestIdx + len // 4, len - 1)` also does, because
`closestIdx` is itself a valid index. -/
theorem C6_forward_progress (gdist bear : Coord → Coord → ℚ) (pos : Coord)
    (ref : List Coord) (maxDev : ℚ) (i : ℕ) (p : Coord)
    (h : find_optimal_merge_point gdist bear pos ref maxDev = some (i, p)) :
    closestIdx gdist pos ref ≤ i := by
  cases ref with
  | nil => exact absurd h (by simp [find_optimal_merge_point])
  | cons r rs =>
      unfold find_optimal_merge_point at h
      dsimp only at h
      cases hb : bestOpt (codeScore gdist bear pos (r :: rs))
          (codeKeep gdist pos (r :: rs) maxDev)
          (List.range' (closestIdx gdist pos (r :: rs))
            ((r :: rs).length - closestIdx gdist pos (r :: rs))) none with
      | none =>
          rw [hb] at h
          dsimp only at h
          simp only [Option.some.injEq, Prod.mk.injEq] at h
          obtain ⟨hi, _⟩ := h
          have hciLen := closestIdx_lt gdist pos r rs
          subst hi
          refine le_min (Nat.le_add_right _ _) ?_
          omega
      | some js =>
          obtain ⟨j, s⟩ := js
          rw [hb] at h
          dsimp only at h
          simp only [Option.some.injEq, Prod.mk.injEq] at h
          obtain ⟨hi, _⟩ := h
          subst hi
          obtain ⟨hmem, _, _⟩ := bestOpt_spec _ _ _ none j s hb
          rcases hmem with ⟨hiL, _, _⟩ | habs
          · exact ((List.mem_range'_1).mp hiL).1
          · cases habs

/-- Witness for C6: in the fallback configuration of the C5 witness the
returned index is 1 and the closest index is 0. -/
theorem C6_forward_progress_witness :
    closestIdx pxyDist (0, 0) [(10, 0), (11, 0), (12, 0), (13, 0), (14, 0)]
      ≤ 1 :=
  C6_forward_progress pxyDist pxyBear (0, 0)
    [(10, 0), (11, 0), (12, 0), (13, 0), (14, 0)] 200 1 (11, 0)
    (by norm_num [find_optimal_merge_point, closestIdx, closestAux, bestOpt,
      codeScore, codeKeep, ang_diff, pymod, pyabs, pxyDist, pxyBear, cDef,
      List.range', Prod.ext_iff])

/-- Claim C7, counterexample: When start and destination coincide, the
degenerate-reference fallback of `create_guided_route` does NOT return the
two-point sequence `[start, destination]`: with start = destination =
`(0,0)` and a pathfinder that always answers the 2-point route
`[(0,0), (1,1)]` (so the offset retry also yields ≤ 2 points), the
destination-append is skipped (`new_coords[-1] == destination` already) and
the returned sequence is the single point `[(0,0)]`. -/
theorem C7_two_point_fallback_counterexample :
    effectiveRef (fun _ _ => some [(0, 0), (1, 1)]) (0, 0) (0, 0)
      = some [(0, 0), (1, 1)] ∧
    ([((0 : ℚ), (0 : ℚ)), ((1 : ℚ), (1 : ℚ))] : List Coord).length ≤ 2 ∧
    create_guided_route (fun _ _ => some [(0, 0), (1, 1)]) pxyBear
      (0, 0) (0, 0) 3 = some [(0, 0)] ∧
    (some [((0 : ℚ), (0 : ℚ))] : Option (List Coord))
      ≠ some [(0, 0), (0, 0)] :=
  ⟨by rfl, by simp, by rfl, by simp⟩

/-- Claim C7, amended: If the effective (post-retry) reference route still has
at most 2 points AND the start differs from the destination, the guided
route is exactly the two-point sequence `[start, destination]`; when start
equals destination it degenerates to the single point `[start]` (see the
counterexample and C10). -/
theorem C7_two_point_fallback (sr : Coord → Coord → Option (List Coord))
    (bear : Coord → Coord → ℚ) (pos dest : Coord) (spacing : ℕ)
    (ref : List Coord)
    (href : effectiveRef sr pos dest = some ref) (hlen : ref.length ≤ 2)
    (hne : pos ≠ dest) :
    create_guided_route sr bear pos dest spacing = some [pos, dest] := by
  have ht : guidedTail bear pos dest spacing ref = [] := by
    unfold guidedTail
    rw [if_neg (by omega)]
  unfold create_guided_route
  rw [href]
  simp only [Option.map_some', Option.some.injEq]
  unfold guidedCoords
  rw [ht]
  show dedup (if ([pos] : List Coord).getLastD cDef ≠ dest then
      [pos] ++ [dest] else [pos]) = [pos, dest]
  rw [if_pos (show ([pos] : List Coord).getLastD cDef ≠ dest from hne)]
  show dedup [pos, dest] = [pos, dest]
  simp [dedup, dedupAux, Ne.symm hne]

/-- Witness for C7 amended: the spec's scenario start `(-5,-5)`,
destination `(5,5)` with a 2-point reference route yields exactly
`[(-5,-5), (5,5)]`. -/
theorem C7_two_point_fallback_witness :
    create_guided_route (fun _ _ => some [(0, 0), (1, 1)]) pxyBear
      (-5, -5) (5, 5) 3 = some [(-5, -5), (5, 5)] :=
  C7_two_point_fallback (fun _ _ => some [(0, 0), (1, 1)]) pxyBear
    (-5, -5) (5, 5) 3 [(0, 0), (1, 1)] (by rfl) (by simp)
    (by norm_num [Prod.ext_iff])

/-- Claim C10: When start = destination and the effective reference route
has at most 2 points, `create_guided_route` returns the one-point sequence
`[start]` — one coordinate, below the data model's 2-coordinate minimum for
a LineString — and the built feature reports length 0. -/
theorem C10_single_point_route (sr : Coord → Coord → Option (List Coord))
    (bear gdist : Coord → Coord → ℚ) (pos : Coord) (spacing : ℕ)
    (units : String) (ref : List Coord)
    (href : effectiveRef sr pos pos = some ref) (hlen : ref.length ≤ 2) :
    create_guided_route sr bear pos pos spacing = some [pos] ∧
    (guidedFeature sr bear gdist pos pos units spacing).map
        Feature.coordinates = some [pos] ∧
    (guidedFeature sr bear gdist pos pos units spacing).map Feature.length
        = some 0 := by
  have hcoords : guidedCoords bear pos pos spacing ref = [pos] := by
    have ht : guidedTail bear pos pos spacing ref = [] := by
      unfold guidedTail
      rw [if_neg (by omega)]
    unfold guidedCoords
    rw [ht]
    show dedup (if ([pos] : List Coord).getLastD cDef ≠ pos then
        [pos] ++ [pos] else [pos]) = [pos]
    rw [if_neg (show ¬(([pos] : List Coord).getLastD cDef ≠ pos) from
      not_not_intro rfl)]
    rfl
  refine ⟨?_, ?_, ?_⟩
  · unfold create_guided_route
    rw [href]
    simp only [Option.map_some', Option.some.injEq]
    exact hcoords
  · unfold guidedFeature
    rw [href]
    simp only [Option.map_some']
    rw [hcoords]
  · unfold guidedFeature
    rw [href]
    simp only [Option.map_some']
    rw [hcoords]
    rfl

/-- Witness for C10: start = destination = `(0,0)` with an always-2-point
pathfinder gives the one-point route `[(0,0)]` of reported length 0. -/
theorem C10_single_point_route_witness :
    create_guided_route (fun _ _ => some [(0, 0), (1, 1)]) pxyBear
      (0, 0) (0, 0) 3 = some [(0, 0)] ∧
    (guidedFeature (fun _ _ => some [(0, 0), (1, 1)]) pxyBear pxyDist
        (0, 0) (0, 0) "naut" 3).map Feature.coordinates = some [(0, 0)] ∧
    (guidedFeature (fun _ _ => some [(0, 0), (1, 1)]) pxyBear pxyDist
        (0, 0) (0, 0) "naut" 3).map Feature.length = some 0 :=
  C10_single_point_route (fun _ _ => some [(0, 0), (1, 1)]) pxyBear pxyDist
    (0, 0) 3 "naut" [(0, 0), (1, 1)] (by rfl) (by simp)
